import Mathlib

/-!
Shallow embedding of `monitor-switch` (src/main.rs), a CLI tool that filters
DDC/CI displays and sets or toggles their input source.  Pure data (the
`InputSource` enum, the query builder) is translated directly; the effectful
main loops are modelled as functions from per-display collaborator behaviour
to a trace of protocol events, so that resource-release and mutation claims
become statements about the trace.
-/

/-- The `InputSource` enum of src/main.rs: 18 named values with fixed
one-byte codes 0x01–0x12 (VESA MCCS Input Source Select value table). -/
inductive InputSource
  | Vga1
  | Vga2
  | Dvi1
  | Dvi2
  | CompositeVideo1
  | CompositeVideo2
  | SVideo1
  | SVideo2
  | Tuner1
  | Tuner2
  | Tuner3
  | ComponentVideo1
  | ComponentVideo2
  | ComponentVideo3
  | DisplayPort1
  | DisplayPort2
  | Hdmi1
  | Hdmi2
deriving DecidableEq, Repr

namespace InputSource

/-- The discriminant of each variant (the `= 0x01` .. `= 0x12` values of the
Rust enum), as used by `input_source as u16`. -/
def toCode : InputSource → Nat
  | .Vga1 => 0x01
  | .Vga2 => 0x02
  | .Dvi1 => 0x03
  | .Dvi2 => 0x04
  | .CompositeVideo1 => 0x05
  | .CompositeVideo2 => 0x06
  | .SVideo1 => 0x07
  | .SVideo2 => 0x08
  | .Tuner1 => 0x09
  | .Tuner2 => 0x0a
  | .Tuner3 => 0x0b
  | .ComponentVideo1 => 0x0c
  | .ComponentVideo2 => 0x0d
  | .ComponentVideo3 => 0x0e
  | .DisplayPort1 => 0x0f
  | .DisplayPort2 => 0x10
  | .Hdmi1 => 0x11
  | .Hdmi2 => 0x12

/-- The variant name of each value, as printed by the derived `EnumDisplay!`
and accepted by the derived `EnumFromStr!` of the Rust enum. -/
def toName : InputSource → String
  | .Vga1 => "Vga1"
  | .Vga2 => "Vga2"
  | .Dvi1 => "Dvi1"
  | .Dvi2 => "Dvi2"
  | .CompositeVideo1 => "CompositeVideo1"
  | .CompositeVideo2 => "CompositeVideo2"
  | .SVideo1 => "SVideo1"
  | .SVideo2 => "SVideo2"
  | .Tuner1 => "Tuner1"
  | .Tuner2 => "Tuner2"
  | .Tuner3 => "Tuner3"
  | .ComponentVideo1 => "ComponentVideo1"
  | .ComponentVideo2 => "ComponentVideo2"
  | .ComponentVideo3 => "ComponentVideo3"
  | .DisplayPort1 => "DisplayPort1"
  | .DisplayPort2 => "DisplayPort2"
  | .Hdmi1 => "Hdmi1"
  | .Hdmi2 => "Hdmi2"

/-- All 18 variants, in declaration order (the iteration order of the derived
`IterVariantNames!`). -/
def variants : List InputSource :=
  [.Vga1, .Vga2, .Dvi1, .Dvi2, .CompositeVideo1, .CompositeVideo2,
   .SVideo1, .SVideo2, .Tuner1, .Tuner2, .Tuner3,
   .ComponentVideo1, .ComponentVideo2, .ComponentVideo3,
   .DisplayPort1, .DisplayPort2, .Hdmi1, .Hdmi2]

/-- `TryFrom!(u16)` of the Rust enum: a numeric value converts to the variant
with that discriminant, any other value is a conversion error. -/
def fromCode (c : Nat) : Option InputSource :=
  variants.find? (fun s => s.toCode == c)

/-- `EnumFromStr!` of the Rust enum: exact variant-name match, any other
string fails to parse. -/
def fromName (n : String) : Option InputSource :=
  variants.find? (fun s => s.toName == n)

theorem mem_variants (s : InputSource) : s ∈ variants := by
  cases s <;> simp [variants]

theorem fromCode_toCode (s : InputSource) : fromCode s.toCode = some s := by
  cases s <;> rfl

theorem fromName_toName (s : InputSource) : fromName s.toName = some s := by
  cases s <;> rfl

theorem toCode_of_fromCode {c : Nat} {s : InputSource}
    (h : fromCode c = some s) : s.toCode = c := by
  have := List.find?_some h
  simpa using this

theorem toName_of_fromName {n : String} {s : InputSource}
    (h : fromName n = some s) : s.toName = n := by
  have := List.find?_some h
  simpa using this

theorem fromCode_eq_none {c : Nat} (h : ∀ s : InputSource, s.toCode ≠ c) :
    fromCode c = none := by
  rw [fromCode, List.find?_eq_none]
  intro s _
  simpa using h s

theorem fromName_eq_none {n : String} (h : ∀ s : InputSource, s.toName ≠ n) :
    fromName n = none := by
  rw [fromName, List.find?_eq_none]
  intro s _
  simpa using h s

end InputSource

/-- The `ddc_hi::Backend` enum (I2cDevice, WinApi, MacOS, Nvapi): the closed
set of backend identifiers accepted by `--backend`. -/
inductive Backend
  | i2cDevice
  | winApi
  | macOS
  | nvapi
deriving DecidableEq, Repr

/-- The static identification fields of `ddc_hi::DisplayInfo` that the
query filters inspect. -/
structure DisplayInfo where
  backend : Backend
  id : String
  manufacturerId : Option String
  modelName : Option String
  serialNumber : Option String
deriving DecidableEq, Repr

/-- The `ddc_hi::Query` tree built by `main` from the CLI filter flags. -/
inductive Query
  | any
  | backend (b : Backend)
  | id (s : String)
  | manufacturerId (s : String)
  | modelName (s : String)
  | serialNumber (s : String)
  | and (qs : List Query)
  | or (qs : List Query)
deriving Repr

mutual

/-- Modelled from the spec: `Query::matches` of the external display-control
library (ddc_hi), the predicate the built filter evaluates on a display's
info — `Any` matches everything, each leaf compares one info field (an
absent optional field matches nothing), `And` is the conjunction and `Or`
the disjunction of its children. -/
def Query.matches : Query → DisplayInfo → Bool
  | .any, _ => true
  | .backend b, info => info.backend == b
  | .id s, info => info.id == s
  | .manufacturerId s, info => info.manufacturerId == some s
  | .modelName s, info => info.modelName == some s
  | .serialNumber s, info => info.serialNumber == some s
  | .and qs, info => Query.matchesAll qs info
  | .or qs, info => Query.matchesAny qs info

/-- `query.iter().all(|q| q.matches(info))` for an `And` node's children. -/
def Query.matchesAll : List Query → DisplayInfo → Bool
  | [], _ => true
  | q :: qs, info => q.matches info && Query.matchesAll qs info

/-- `query.iter().any(|q| q.matches(info))` for an `Or` node's children. -/
def Query.matchesAny : List Query → DisplayInfo → Bool
  | [], _ => false
  | q :: qs, info => q.matches info || Query.matchesAny qs info

end

theorem Query.matchesAll_eq_true (qs : List Query) (info : DisplayInfo) :
    Query.matchesAll qs info = true ↔ ∀ q ∈ qs, q.matches info = true := by
  induction qs with
  | nil => simp [Query.matchesAll]
  | cons q qs ih => simp [Query.matchesAll, Bool.and_eq_true, ih]

theorem Query.matchesAny_eq_true (qs : List Query) (info : DisplayInfo) :
    Query.matchesAny qs info = true ↔ ∃ q ∈ qs, q.matches info = true := by
  induction qs with
  | nil => simp [Query.matchesAny]
  | cons q qs ih => simp [Query.matchesAny, Bool.or_eq_true, ih]

theorem Query.matches_and (qs : List Query) (info : DisplayInfo) :
    (Query.and qs).matches info = true ↔ ∀ q ∈ qs, q.matches info = true := by
  simp [Query.matches, Query.matchesAll_eq_true]

theorem Query.matches_or (qs : List Query) (info : DisplayInfo) :
    (Query.or qs).matches info = true ↔ ∃ q ∈ qs, q.matches info = true := by
  simp [Query.matches, Query.matchesAny_eq_true]

/-- The filter-building block of `main` (src/main.rs lines 173–199): starting
from `Query::Any` and `needs_caps = false`, each present flag wraps the query
in `Query::And`; the repeatable backend flag contributes a `Query::Or` of its
(already validated) values; the model flag additionally sets `needs_caps`. -/
def buildQuery (backends : Option (List Backend))
    (id mfg model serial : Option String) : Query × Bool :=
  let query := Query.any
  let needsCaps := false
  let query := match backends with
    | some bs => Query.and [query, Query.or (bs.map Query.backend)]
    | none => query
  let query := match id with
    | some s => Query.and [query, Query.id s]
    | none => query
  let query := match mfg with
    | some s => Query.and [query, Query.manufacturerId s]
    | none => query
  let qn := match model with
    | some s => (Query.and [query, Query.modelName s], true)
    | none => (query, needsCaps)
  let query := qn.1
  let needsCaps := qn.2
  let query := match serial with
    | some s => Query.and [query, Query.serialNumber s]
    | none => query
  (query, needsCaps)

/-- One display as reported by `Display::enumerate()`, together with the
collaborator's behaviour for the capability refresh the locator may issue:
whether `update_capabilities` succeeds, and the info it would leave behind
(model name etc. may only be populated by the refresh). -/
structure EnumDisplay where
  info : DisplayInfo
  refreshOk : Bool
  refreshedInfo : DisplayInfo
deriving DecidableEq, Repr

/-- The body of the `.map` closure in `displays` (src/main.rs lines 73–78):
when capabilities are needed and the backend is `WinApi`, the display is
refreshed (`d.update_capabilities().map(|_| d)`), otherwise passed through
as `Ok(d)`. -/
def refreshStep (needsCaps : Bool) (d : EnumDisplay) : Except Unit EnumDisplay :=
  if needsCaps && (d.info.backend == Backend.winApi) then
    if d.refreshOk then .ok { d with info := d.refreshedInfo } else .error ()
  else
    .ok d

/-- `collect::<Result<Vec<_>, _>>()` over an iterator of results: the whole
collection succeeds only when every element is `Ok`, and the first `Err`
aborts it. -/
def collectExcept : List (Except Unit EnumDisplay) → Except Unit (List EnumDisplay)
  | [] => .ok []
  | .error e :: _ => .error e
  | .ok d :: rest => (collectExcept rest).map (d :: ·)

/-- The `displays` function of src/main.rs (lines 68–86): map the enumerated
displays through the conditional capability refresh, keep the results whose
display matches the query — an `Err` result passes the filter unconditionally
— and collect into a single `Result`. -/
def displays (query : Query) (needsCaps : Bool) (enum : List EnumDisplay) :
    Except Unit (List EnumDisplay) :=
  collectExcept
    ((enum.map (refreshStep needsCaps)).filter (fun r =>
      match r with
      | .ok d => query.matches d.info
      | .error _ => true))

/-- The display value `displays` keeps for a display whose probe succeeds:
refreshed info when the conditional refresh applies, untouched otherwise. -/
def applyRefresh (needsCaps : Bool) (d : EnumDisplay) : EnumDisplay :=
  if needsCaps && (d.info.backend == Backend.winApi) then
    { d with info := d.refreshedInfo }
  else
    d

theorem collectExcept_error_of_mem {l : List (Except Unit EnumDisplay)}
    (h : Except.error () ∈ l) : collectExcept l = Except.error () := by
  induction l with
  | nil => cases h
  | cons hd tl ih =>
    cases hd with
    | error e => rfl
    | ok d =>
      simp only [List.mem_cons] at h
      rcases h with h | h
      · cases h
      · simp [collectExcept, ih h, Except.map]

theorem collectExcept_ok (l : List EnumDisplay) :
    collectExcept (l.map Except.ok) = Except.ok l := by
  induction l with
  | nil => rfl
  | cons hd tl ih => simp [collectExcept, ih, Except.map]

/-- The collaborator behaviour of one matched display during a command loop:
whether the unconditional `update_capabilities()` in the loop succeeds, the
entry `mccs_database.get(0x60)` yields (the feature's VCP code when present),
the value `get_vcp_feature` would return (`none` models a read error), and
whether `set_vcp_feature` succeeds. -/
structure DisplayBehavior where
  updateCapsOk : Bool
  inputFeature : Option Nat
  getVcpValue : Option Nat
  setVcpOk : Bool
deriving DecidableEq, Repr

/-- Observable protocol events of one invocation; displays are labelled by
their position in the matched list. -/
inductive Event
  | updateCaps (i : Nat)
  | getVcp (i : Nat) (code : Nat)
  | setVcp (i : Nat) (code : Nat) (value : Nat)
  | warn (i : Nat)
  | sleep (i : Nat)
deriving DecidableEq, Repr

/-- `set_input_source` of src/main.rs (lines 88–96): when the Input-Source
feature (0x60) is in the display's MCCS database, issue
`set_vcp_feature(feature.code, input_source as u16)`; otherwise fail with
"Could not access input source feature" without touching the handle.
Returns the emitted events and the `Result`. -/
def set_input_source (i : Nat) (d : DisplayBehavior) (src : InputSource) :
    List Event × Except Unit Unit :=
  match d.inputFeature with
  | some code =>
    ([Event.setVcp i code src.toCode], if d.setVcpOk then .ok () else .error ())
  | none => ([], .error ())

/-- `get_input_source` of src/main.rs (lines 98–105): when the Input-Source
feature is in the MCCS database, read it with `get_vcp_feature(feature.code)`
and convert the returned value with `InputSource::try_from`; a missing
feature, a failed read or an unconvertible value is an error. -/
def get_input_source (i : Nat) (d : DisplayBehavior) :
    List Event × Except Unit InputSource :=
  match d.inputFeature with
  | some code =>
    ([Event.getVcp i code],
      match d.getVcpValue with
      | some v =>
        match InputSource.fromCode v with
        | some s => .ok s
        | none => .error ()
      | none => .error ())
  | none => ([], .error ())

/-- The `set` command loop of `main` (src/main.rs lines 210–217), over the
matched displays starting at label `i`: `update_capabilities()?` (fatal on
failure), then `set_input_source` with its error demoted to a warning, then
`sleep.add(display)`.  Returns the loop's events, the final contents of the
`DisplaySleep` collection, and whether the loop completed without a fatal
error. -/
def runSetLoop (src : InputSource) :
    Nat → List DisplayBehavior → List Nat → List Event × List Nat × Bool
  | _, [], added => ([], added, true)
  | i, d :: rest, added =>
    if d.updateCapsOk then
      let sr := set_input_source i d src
      let wevs : List Event := match sr.2 with
        | .error _ => [Event.warn i]
        | .ok _ => []
      let next := runSetLoop src (i + 1) rest (added ++ [i])
      (Event.updateCaps i :: sr.1 ++ wevs ++ next.1, next.2)
    else
      ([Event.updateCaps i], added, false)

/-- The whole `set` command after display location (src/main.rs lines
201–217 and 59–66): run the loop with an initially empty `DisplaySleep`,
then — on every exit path — `DisplaySleep::drop` sleeps each collected
display once, in insertion order.  Returns the full event trace and whether
`main` returns `Ok`. -/
def runSet (src : InputSource) (ds : List DisplayBehavior) :
    List Event × Bool :=
  let r := runSetLoop src 0 ds []
  (r.1 ++ r.2.1.map Event.sleep, r.2.2)

/-- The target-deciding block of the `toggle` loop (src/main.rs lines
233–243): while no target is decided, read this display's current source
(fatal on failure, modelled by `none`) — a current value equal to the first
candidate decides the second, one equal to the second decides the first, and
any other value is the fatal bail ("Current input source is not a toggle
option"); a previously decided target is kept untouched. -/
def decideTarget (c1 c2 : InputSource) (i : Nat) (d : DisplayBehavior)
    (target : Option InputSource) : List Event × Option InputSource :=
  match target with
  | some t => ([], some t)
  | none =>
    let gr := get_input_source i d
    match gr.2 with
    | .error _ => (gr.1, none)
    | .ok current =>
      if current = c1 then (gr.1, some c2)
      else if current = c2 then (gr.1, some c1)
      else (gr.1, none)

/-- The `toggle` command loop of `main` (src/main.rs lines 229–253), over the
matched displays starting at label `i`, with the running `target`:
`update_capabilities()?` (fatal on failure), the target decision while it is
still pending, then the write of the decided target with its error demoted to
a warning, and `sleep.add(display)`. -/
def runToggleLoop (c1 c2 : InputSource) :
    Nat → List DisplayBehavior → Option InputSource → List Nat →
      List Event × List Nat × Bool
  | _, [], _, added => ([], added, true)
  | i, d :: rest, target, added =>
    if d.updateCapsOk then
      let decided := decideTarget c1 c2 i d target
      match decided.2 with
      | some t =>
        let sr := set_input_source i d t
        let wevs : List Event := match sr.2 with
          | .error _ => [Event.warn i]
          | .ok _ => []
        let next := runToggleLoop c1 c2 (i + 1) rest (some t) (added ++ [i])
        (Event.updateCaps i :: decided.1 ++ sr.1 ++ wevs ++ next.1, next.2)
      | none => (Event.updateCaps i :: decided.1, added, false)
    else
      ([Event.updateCaps i], added, false)

/-- The whole `toggle` command after display location (src/main.rs lines
201, 229–253 and 59–66): run the loop with no target decided and an empty
`DisplaySleep`; on every exit path `DisplaySleep::drop` sleeps each collected
display once, in insertion order. -/
def runToggle (c1 c2 : InputSource) (ds : List DisplayBehavior) :
    List Event × Bool :=
  let r := runToggleLoop c1 c2 0 ds none []
  (r.1 ++ r.2.1.map Event.sleep, r.2.2)

/-- Contents of the `DisplaySleep` collection when the `set` command exits. -/
def setSleepList (src : InputSource) (ds : List DisplayBehavior) : List Nat :=
  (runSetLoop src 0 ds []).2.1

/-- Contents of the `DisplaySleep` collection when the `toggle` command
exits. -/
def toggleSleepList (c1 c2 : InputSource) (ds : List DisplayBehavior) :
    List Nat :=
  (runToggleLoop c1 c2 0 ds none []).2.1

theorem decideTarget_keep (c1 c2 : InputSource) (i : Nat) (d : DisplayBehavior)
    (t : InputSource) : decideTarget c1 c2 i d (some t) = ([], some t) := rfl

theorem decideTarget_events_none (c1 c2 : InputSource) (i : Nat)
    (d : DisplayBehavior) :
    (decideTarget c1 c2 i d none).1 = (get_input_source i d).1 := by
  simp only [decideTarget]
  rcases h : (get_input_source i d).2 with _ | cur
  · rfl
  · by_cases h1 : cur = c1
    · simp [h1]
    · by_cases h2 : cur = c2
      · simp only [h1, h2, if_false, if_true]
        split <;> rfl
      · simp [h1, h2]

theorem decideTarget_events (c1 c2 : InputSource) (i : Nat)
    (d : DisplayBehavior) (target : Option InputSource) :
    ∀ e ∈ (decideTarget c1 c2 i d target).1, ∃ c, e = Event.getVcp i c := by
  intro e he
  rcases target with _ | t
  · rw [decideTarget_events_none] at he
    rcases hf : d.inputFeature with _ | code
    · simp [get_input_source, hf] at he
    · simp [get_input_source, hf] at he
      exact ⟨code, he⟩
  · simp [decideTarget_keep] at he

theorem runSetLoop_no_sleep (src : InputSource) (ds : List DisplayBehavior) :
    ∀ (i : Nat) (added : List Nat) (j : Nat),
      Event.sleep j ∉ (runSetLoop src i ds added).1 := by
  induction ds with
  | nil => intro i added j; simp [runSetLoop]
  | cons d rest ih =>
    intro i added j
    by_cases hc : d.updateCapsOk
    · rcases hf : d.inputFeature with _ | code <;>
        by_cases hs : d.setVcpOk <;>
          simp [runSetLoop, hc, set_input_source, hf, hs, ih (i + 1)]
    · simp [runSetLoop, hc]

theorem runSetLoop_added (src : InputSource) (ds : List DisplayBehavior) :
    ∀ (i : Nat) (added : List Nat),
      ∃ l, (runSetLoop src i ds added).2.1 = added ++ l ∧
        l.Sublist (List.range' i ds.length) := by
  induction ds with
  | nil => intro i added; exact ⟨[], by simp [runSetLoop]⟩
  | cons d rest ih =>
    intro i added
    by_cases hc : d.updateCapsOk
    · obtain ⟨l, hl, hsub⟩ := ih (i + 1) (added ++ [i])
      refine ⟨i :: l, ?_, ?_⟩
      · simp only [runSetLoop, hc, if_true]
        simpa using hl
      · simpa [List.range'_succ] using hsub.cons₂ i
    · exact ⟨[], by simp [runSetLoop, hc]⟩

theorem runSetLoop_success (src : InputSource) (ds : List DisplayBehavior)
    (hcaps : ∀ d ∈ ds, d.updateCapsOk = true) :
    ∀ (i : Nat) (added : List Nat), (runSetLoop src i ds added).2.2 = true := by
  induction ds with
  | nil => intro i added; simp [runSetLoop]
  | cons d rest ih =>
    intro i added
    have hd := hcaps d (by simp)
    have ih := ih (fun d' hd' => hcaps d' (by simp [hd']))
    simp [runSetLoop, hd, ih (i + 1)]

theorem runSetLoop_warn_of_featureless (src : InputSource)
    (ds : List DisplayBehavior)
    (hcaps : ∀ d ∈ ds, d.updateCapsOk = true) :
    ∀ (i : Nat) (added : List Nat) (k : Nat) (d : DisplayBehavior),
      ds.get? k = some d → d.inputFeature = none →
        Event.warn (i + k) ∈ (runSetLoop src i ds added).1 := by
  induction ds with
  | nil => intro i added k d hk; simp at hk
  | cons d0 rest ih =>
    intro i added k d hk hfeat
    have hd0 := hcaps d0 (by simp)
    have ih := ih (fun d' hd' => hcaps d' (by simp [hd']))
    cases k with
    | zero =>
      simp only [List.get?] at hk
      injection hk with hk
      subst hk
      simp [runSetLoop, hd0, set_input_source, hfeat]
    | succ k =>
      simp only [List.get?] at hk
      have hmem := ih (i + 1) (added ++ [i]) k d hk hfeat
      have harith : i + 1 + k = i + (k + 1) := by omega
      rw [harith] at hmem
      simp [runSetLoop, hd0, hmem]

theorem runToggleLoop_no_sleep (c1 c2 : InputSource) (ds : List DisplayBehavior) :
    ∀ (i : Nat) (target : Option InputSource) (added : List Nat) (j : Nat),
      Event.sleep j ∉ (runToggleLoop c1 c2 i ds target added).1 := by
  induction ds with
  | nil => intro i target added j; simp [runToggleLoop]
  | cons d rest ih =>
    intro i target added j
    by_cases hc : d.updateCapsOk
    · rcases hdec : decideTarget c1 c2 i d target with ⟨gevs, tgt⟩
      have hg : ∀ e ∈ gevs, ∃ c, e = Event.getVcp i c := by
        have hh := decideTarget_events c1 c2 i d target
        rw [hdec] at hh
        exact hh
      have hgs : Event.sleep j ∉ gevs := by
        intro hmem
        obtain ⟨c, hce⟩ := hg _ hmem
        cases hce
      rcases tgt with _ | t
      · simp [runToggleLoop, hc, hdec, hgs]
      · rcases hf : d.inputFeature with _ | code <;>
          by_cases hs : d.setVcpOk <;>
            simp [runToggleLoop, hc, hdec, set_input_source, hf, hs, hgs,
              ih (i + 1) (some t) (added ++ [i]) j]
    · simp [runToggleLoop, hc]

theorem runToggleLoop_added (c1 c2 : InputSource) (ds : List DisplayBehavior) :
    ∀ (i : Nat) (target : Option InputSource) (added : List Nat),
      ∃ l, (runToggleLoop c1 c2 i ds target added).2.1 = added ++ l ∧
        l.Sublist (List.range' i ds.length) := by
  induction ds with
  | nil => intro i target added; exact ⟨[], by simp [runToggleLoop]⟩
  | cons d rest ih =>
    intro i target added
    by_cases hc : d.updateCapsOk
    · rcases hdec : decideTarget c1 c2 i d target with ⟨gevs, tgt⟩
      rcases tgt with _ | t
      · refine ⟨[], ?_, List.nil_sublist _⟩
        simp [runToggleLoop, hc, hdec]
      · obtain ⟨l, hl, hsub⟩ := ih (i + 1) (some t) (added ++ [i])
        refine ⟨i :: l, ?_, ?_⟩
        · simp only [runToggleLoop, hc, if_true, hdec]
          simpa using hl
        · simpa [List.range'_succ] using hsub.cons₂ i
    · exact ⟨[], by simp [runToggleLoop, hc], List.nil_sublist _⟩

theorem runToggleLoop_decided_success (c1 c2 t : InputSource) :
    ∀ (ds : List DisplayBehavior), (∀ d ∈ ds, d.updateCapsOk = true) →
      ∀ (i : Nat) (added : List Nat),
        (runToggleLoop c1 c2 i ds (some t) added).2.2 = true := by
  intro ds
  induction ds with
  | nil => intro _ i added; simp [runToggleLoop]
  | cons d rest ih =>
    intro hcaps i added
    have hd := hcaps d (by simp)
    have ih := ih (fun d' h' => hcaps d' (by simp [h']))
    simp [runToggleLoop, hd, decideTarget_keep, ih (i + 1)]

theorem runToggleLoop_decided_writes (c1 c2 t : InputSource) :
    ∀ (ds : List DisplayBehavior), (∀ d ∈ ds, d.updateCapsOk = true) →
      ∀ (i : Nat) (added : List Nat) (k : Nat) (d : DisplayBehavior) (c : Nat),
        ds.get? k = some d → d.inputFeature = some c →
          Event.setVcp (i + k) c t.toCode ∈
            (runToggleLoop c1 c2 i ds (some t) added).1 := by
  intro ds
  induction ds with
  | nil => intro _ i added k d c hk; simp at hk
  | cons d0 rest ih =>
    intro hcaps i added k d c hk hfeat
    have hd0 := hcaps d0 (by simp)
    cases k with
    | zero =>
      simp only [List.get?] at hk
      injection hk with hk
      subst hk
      by_cases hs : d0.setVcpOk <;>
        simp [runToggleLoop, hd0, decideTarget_keep, set_input_source, hfeat, hs]
    | succ k =>
      simp only [List.get?] at hk
      have hmem := ih (fun d' h' => hcaps d' (by simp [h'])) (i + 1)
        (added ++ [i]) k d c hk hfeat
      have harith : i + 1 + k = i + (k + 1) := by omega
      rw [harith] at hmem
      rcases hf0 : d0.inputFeature with _ | c0 <;>
        by_cases hs : d0.setVcpOk <;>
          simp [runToggleLoop, hd0, decideTarget_keep, set_input_source, hf0,
            hs, hmem]

theorem runToggleLoop_setVcp_value (c1 c2 t : InputSource) :
    ∀ (ds : List DisplayBehavior) (i : Nat) (added : List Nat) (j c v : Nat),
      Event.setVcp j c v ∈ (runToggleLoop c1 c2 i ds (some t) added).1 →
        v = t.toCode := by
  intro ds
  induction ds with
  | nil => intro i added j c v h; simp [runToggleLoop] at h
  | cons d0 rest ih =>
    intro i added j c v h
    by_cases hc : d0.updateCapsOk
    · rcases hf : d0.inputFeature with _ | c0
      · simp [runToggleLoop, hc, decideTarget_keep, set_input_source, hf] at h
        exact ih (i + 1) (added ++ [i]) j c v h
      · by_cases hs : d0.setVcpOk <;>
          simp [runToggleLoop, hc, decideTarget_keep, set_input_source, hf,
            hs] at h <;>
          rcases h with ⟨hj, hcc, hv⟩ | h <;>
          first
            | exact hv
            | exact ih (i + 1) (added ++ [i]) j c v h
    · simp [runToggleLoop, hc] at h

theorem runToggleLoop_no_getVcp (c1 c2 t : InputSource) :
    ∀ (ds : List DisplayBehavior) (i : Nat) (added : List Nat) (j c : Nat),
      Event.getVcp j c ∉ (runToggleLoop c1 c2 i ds (some t) added).1 := by
  intro ds
  induction ds with
  | nil => intro i added j c; simp [runToggleLoop]
  | cons d0 rest ih =>
    intro i added j c
    by_cases hc : d0.updateCapsOk
    · rcases hf : d0.inputFeature with _ | c0 <;>
        by_cases hs : d0.setVcpOk <;>
          simp [runToggleLoop, hc, decideTarget_keep, set_input_source, hf, hs,
            ih (i + 1) (added ++ [i]) j c]
    · simp [runToggleLoop, hc]

theorem runToggleLoop_getVcp_head (c1 c2 : InputSource)
    (ds : List DisplayBehavior) (i : Nat) (target : Option InputSource)
    (added : List Nat) (j c : Nat)
    (h : Event.getVcp j c ∈ (runToggleLoop c1 c2 i ds target added).1) :
    j = i := by
  cases ds with
  | nil => simp [runToggleLoop] at h
  | cons d0 rest =>
    by_cases hc : d0.updateCapsOk
    · rcases hdec : decideTarget c1 c2 i d0 target with ⟨gevs, tgt⟩
      have hg : ∀ e ∈ gevs, ∃ cc, e = Event.getVcp i cc := by
        have hh := decideTarget_events c1 c2 i d0 target
        rw [hdec] at hh
        exact hh
      rcases tgt with _ | t
      · simp [runToggleLoop, hc, hdec] at h
        obtain ⟨cc, he⟩ := hg _ h
        injection he with h1 h2
      · rcases hf : d0.inputFeature with _ | c0 <;>
          by_cases hs : d0.setVcpOk <;>
            simp [runToggleLoop, hc, hdec, set_input_source, hf, hs,
              runToggleLoop_no_getVcp c1 c2 t rest (i + 1) (added ++ [i]) j c]
              at h <;>
          · obtain ⟨cc, he⟩ := hg _ h
            injection he with h1 h2
    · simp [runToggleLoop, hc] at h

theorem runSetLoop_setVcp_inv (src : InputSource) (ds : List DisplayBehavior) :
    ∀ (i : Nat) (added : List Nat) (j c v : Nat),
      Event.setVcp j c v ∈ (runSetLoop src i ds added).1 →
        ∃ k d, ds.get? k = some d ∧ j = i + k ∧
          d.inputFeature = some c ∧ v = src.toCode := by
  induction ds with
  | nil => intro i added j c v h; simp [runSetLoop] at h
  | cons d0 rest ih =>
    intro i added j c v h
    by_cases hc : d0.updateCapsOk
    · rcases hf : d0.inputFeature with _ | code
      · simp [runSetLoop, hc, set_input_source, hf] at h
        obtain ⟨k, d, hk, hj, hfeat, hv⟩ := ih (i + 1) (added ++ [i]) j c v h
        exact ⟨k + 1, d, by simpa using hk, by omega, hfeat, hv⟩
      · by_cases hs : d0.setVcpOk <;>
          simp [runSetLoop, hc, set_input_source, hf, hs] at h <;>
          [rcases h with ⟨hj, hcc, hv⟩ | h; rcases h with ⟨hj, hcc, hv⟩ | h] <;>
          first
          | exact ⟨0, d0, by simp, by omega, by simp [hf, hcc], by simp [hv]⟩
          | · obtain ⟨k, d, hk, hj, hfeat, hv⟩ := ih (i + 1) (added ++ [i]) j c v h
              exact ⟨k + 1, d, by simpa using hk, by omega, hfeat, hv⟩
    · simp [runSetLoop, hc] at h

theorem count_map_sleep (l : List Nat) (j : Nat) :
    (l.map Event.sleep).count (Event.sleep j) = l.count j := by
  induction l with
  | nil => rfl
  | cons a tl ih => simp [List.count_cons, ih]

theorem setSleepList_nodup (src : InputSource) (ds : List DisplayBehavior) :
    (setSleepList src ds).Nodup := by
  obtain ⟨l, hl, hsub⟩ := runSetLoop_added src ds 0 []
  rw [setSleepList, hl]
  simpa using hsub.nodup (List.nodup_range' _ _)

theorem toggleSleepList_nodup (c1 c2 : InputSource)
    (ds : List DisplayBehavior) : (toggleSleepList c1 c2 ds).Nodup := by
  obtain ⟨l, hl, hsub⟩ := runToggleLoop_added c1 c2 ds 0 none []
  rw [toggleSleepList, hl]
  simpa using hsub.nodup (List.nodup_range' _ _)

theorem runSet_sleep_count (src : InputSource) (ds : List DisplayBehavior)
    (j : Nat) :
    (runSet src ds).1.count (Event.sleep j) = (setSleepList src ds).count j := by
  show ((runSetLoop src 0 ds []).1 ++
      (runSetLoop src 0 ds []).2.1.map Event.sleep).count (Event.sleep j) = _
  rw [List.count_append,
    List.count_eq_zero_of_not_mem (runSetLoop_no_sleep src ds 0 [] j),
    count_map_sleep]
  simp [setSleepList]

theorem runToggle_sleep_count (c1 c2 : InputSource)
    (ds : List DisplayBehavior) (j : Nat) :
    (runToggle c1 c2 ds).1.count (Event.sleep j) =
      (toggleSleepList c1 c2 ds).count j := by
  show ((runToggleLoop c1 c2 0 ds none []).1 ++
      (runToggleLoop c1 c2 0 ds none []).2.1.map Event.sleep).count
        (Event.sleep j) = _
  rw [List.count_append,
    List.count_eq_zero_of_not_mem (runToggleLoop_no_sleep c1 c2 ds 0 none [] j),
    count_map_sleep]
  simp [toggleSleepList]

/-- Three matched displays for the mid-loop-abort scenario: the second
display's `update_capabilities` fails, which `?` propagates as the fatal
error before `sleep.add` ever sees that display. -/
def midErrorDisplays : List DisplayBehavior :=
  [⟨true, some 0x60, some 0x11, true⟩,
   ⟨false, some 0x60, some 0x11, true⟩,
   ⟨true, some 0x60, some 0x11, true⟩]

/-- **C1** (amended): on every exit path of the `set` and `toggle` command
loops — normal completion or a fatal error aborting the loop — each display
label receives exactly one `sleep` (teardown delay) call when it is in the
`DisplaySleep` collection at exit, and none otherwise; a display on which
the fatal error strikes was not yet added and therefore receives none. -/
theorem displaySleep_exactly_once (src c1 c2 : InputSource)
    (ds : List DisplayBehavior) (j : Nat) :
    (j ∈ setSleepList src ds →
      (runSet src ds).1.count (Event.sleep j) = 1) ∧
    (j ∉ setSleepList src ds →
      (runSet src ds).1.count (Event.sleep j) = 0) ∧
    (j ∈ toggleSleepList c1 c2 ds →
      (runToggle c1 c2 ds).1.count (Event.sleep j) = 1) ∧
    (j ∉ toggleSleepList c1 c2 ds →
      (runToggle c1 c2 ds).1.count (Event.sleep j) = 0) := by
  refine ⟨?_, ?_, ?_, ?_⟩
  · intro hmem
    rw [runSet_sleep_count]
    exact List.count_eq_one_of_mem (setSleepList_nodup src ds) hmem
  · intro hmem
    rw [runSet_sleep_count]
    exact List.count_eq_zero_of_not_mem hmem
  · intro hmem
    rw [runToggle_sleep_count]
    exact List.count_eq_one_of_mem (toggleSleepList_nodup c1 c2 ds) hmem
  · intro hmem
    rw [runToggle_sleep_count]
    exact List.count_eq_zero_of_not_mem hmem

/-- **C1** counterexample: with 3 matched displays and the fatal error
striking while display 2 is processed (its `update_capabilities` fails),
the command aborts, display 1 receives exactly one teardown call, but
display 2 receives zero — not one as the claim states — because the error
hits before `sleep.add(display)` runs for it; display 3 also receives
none. -/
theorem displaySleep_mid_error_counterexample :
    (runSet InputSource.Hdmi1 midErrorDisplays).2 = false ∧
    (runSet InputSource.Hdmi1 midErrorDisplays).1.count (Event.sleep 0) = 1 ∧
    (runSet InputSource.Hdmi1 midErrorDisplays).1.count (Event.sleep 1) = 0 ∧
    (runSet InputSource.Hdmi1 midErrorDisplays).1.count (Event.sleep 2) = 0 := by
  decide

/-- Witness for the C1 theorem at the concrete mid-error scenario. -/
theorem displaySleep_exactly_once_witness :
    (runSet InputSource.Hdmi1 midErrorDisplays).1.count (Event.sleep 0) = 1 ∧
    (runSet InputSource.Hdmi1 midErrorDisplays).1.count (Event.sleep 2) = 0 :=
  ⟨(displaySleep_exactly_once InputSource.Hdmi1 InputSource.Hdmi1
      InputSource.Hdmi1 midErrorDisplays 0).1 (by decide),
   (displaySleep_exactly_once InputSource.Hdmi1 InputSource.Hdmi1
      InputSource.Hdmi1 midErrorDisplays 2).2.1 (by decide)⟩

/-- Two matched displays whose first lacks the Input-Source feature in its
MCCS table and whose second supports it. -/
def featurelessFirstDisplays : List DisplayBehavior :=
  [⟨true, none, none, true⟩, ⟨true, some 0x60, some 0x11, true⟩]

/-- **C2** (amended): during the `set` command, a matched display whose MCCS
feature table lacks the Input-Source feature (VCP 0x60) makes
`set_input_source` return the "Could not access input source feature" error,
but the loop logs it as a warning and continues: no write is issued to that
display, and — when every display's `update_capabilities` succeeds — the
command still processes all remaining displays and exits successfully.  The
abort the claim describes does not happen. -/
theorem set_featureless_warns_and_continues (src : InputSource)
    (ds : List DisplayBehavior) (k : Nat) (d : DisplayBehavior)
    (hk : ds.get? k = some d) (hfeat : d.inputFeature = none)
    (hcaps : ∀ d' ∈ ds, d'.updateCapsOk = true) :
    Event.warn k ∈ (runSet src ds).1 ∧
    (∀ c v, Event.setVcp k c v ∉ (runSet src ds).1) ∧
    (runSet src ds).2 = true := by
  refine ⟨?_, ?_, ?_⟩
  · have h := runSetLoop_warn_of_featureless src ds hcaps 0 [] k d hk hfeat
    show Event.warn k ∈ (runSetLoop src 0 ds []).1 ++
      (runSetLoop src 0 ds []).2.1.map Event.sleep
    exact List.mem_append.2 (Or.inl (by simpa using h))
  · intro c v hmem
    have hmem' : Event.setVcp k c v ∈ (runSetLoop src 0 ds []).1 ++
        (runSetLoop src 0 ds []).2.1.map Event.sleep := hmem
    rcases List.mem_append.1 hmem' with h | h
    · obtain ⟨k', d', hk', hj, hfeat', hv⟩ :=
        runSetLoop_setVcp_inv src ds 0 [] k c v h
      have hkk : k' = k := by omega
      subst hkk
      rw [hk] at hk'
      injection hk' with hk'
      subst hk'
      rw [hfeat] at hfeat'
      cases hfeat'
    · obtain ⟨x, _, hx⟩ := List.mem_map.1 h
      cases hx
  · show (runSetLoop src 0 ds []).2.2 = true
    exact runSetLoop_success src ds hcaps 0 []

/-- **C2** counterexample: `set` on a first matched display lacking the
Input-Source feature does not abort — `main` returns `Ok` (exit code 0), the
error is only a logged warning, and the second matched display is still
written — contradicting the claimed fatal "feature not accessible" abort
that would leave other displays untouched. -/
theorem set_featureless_counterexample :
    (runSet InputSource.Hdmi1 featurelessFirstDisplays).2 = true ∧
    Event.warn 0 ∈ (runSet InputSource.Hdmi1 featurelessFirstDisplays).1 ∧
    Event.setVcp 1 0x60 InputSource.Hdmi1.toCode ∈
      (runSet InputSource.Hdmi1 featurelessFirstDisplays).1 := by
  decide

/-- Witness for the C2 theorem at the concrete two-display scenario. -/
theorem set_featureless_warns_witness :
    Event.warn 0 ∈ (runSet InputSource.Hdmi1 featurelessFirstDisplays).1 ∧
    (runSet InputSource.Hdmi1 featurelessFirstDisplays).2 = true :=
  ⟨(set_featureless_warns_and_continues InputSource.Hdmi1
      featurelessFirstDisplays 0 ⟨true, none, none, true⟩ (by decide) rfl
      (by decide)).1,
   (set_featureless_warns_and_continues InputSource.Hdmi1
      featurelessFirstDisplays 0 ⟨true, none, none, true⟩ (by decide) rfl
      (by decide)).2.2⟩

theorem runToggle_first_decides (c1 c2 cur t : InputSource)
    (d0 : DisplayBehavior) (rest : List DisplayBehavior) (c0 v : Nat)
    (hcap0 : d0.updateCapsOk = true)
    (hfeat0 : d0.inputFeature = some c0)
    (hval0 : d0.getVcpValue = some v)
    (hcur : InputSource.fromCode v = some cur)
    (ht : (if cur = c1 then some c2 else if cur = c2 then some c1 else none) =
      some t) :
    runToggleLoop c1 c2 0 (d0 :: rest) none [] =
      (Event.updateCaps 0 :: Event.getVcp 0 c0 ::
          Event.setVcp 0 c0 t.toCode ::
          ((if d0.setVcpOk then [] else [Event.warn 0]) ++
            (runToggleLoop c1 c2 1 rest (some t) [0]).1),
        (runToggleLoop c1 c2 1 rest (some t) [0]).2) := by
  have hdec : decideTarget c1 c2 0 d0 none = ([Event.getVcp 0 c0], some t) := by
    by_cases h1 : cur = c1
    · rw [if_pos h1] at ht
      injection ht with ht
      subst ht
      simp [decideTarget, get_input_source, hfeat0, hval0, hcur, h1]
    · by_cases h2 : cur = c2
      · rw [if_neg h1, if_pos h2] at ht
        injection ht with ht
        subst ht
        simp [decideTarget, get_input_source, hfeat0, hval0, hcur, h1, h2]
      · rw [if_neg h1, if_neg h2] at ht
        cases ht
  by_cases hs : d0.setVcpOk <;>
    simp [runToggleLoop, hcap0, hdec, set_input_source, hfeat0, hs]

theorem runToggle_first_bails (c1 c2 cur : InputSource)
    (d0 : DisplayBehavior) (rest : List DisplayBehavior) (c0 v : Nat)
    (hcap0 : d0.updateCapsOk = true)
    (hfeat0 : d0.inputFeature = some c0)
    (hval0 : d0.getVcpValue = some v)
    (hcur : InputSource.fromCode v = some cur)
    (h1 : cur ≠ c1) (h2 : cur ≠ c2) :
    runToggleLoop c1 c2 0 (d0 :: rest) none [] =
      ([Event.updateCaps 0, Event.getVcp 0 c0], [], false) := by
  have hdec : decideTarget c1 c2 0 d0 none = ([Event.getVcp 0 c0], none) := by
    simp [decideTarget, get_input_source, hfeat0, hval0, hcur, h1, h2]
  simp [runToggleLoop, hcap0, hdec]

theorem runToggle_getVcp_zero (c1 c2 : InputSource) (ds : List DisplayBehavior)
    (j c : Nat) (h : Event.getVcp j c ∈ (runToggle c1 c2 ds).1) : j = 0 := by
  have h' : Event.getVcp j c ∈ (runToggleLoop c1 c2 0 ds none []).1 ++
      (runToggleLoop c1 c2 0 ds none []).2.1.map Event.sleep := h
  rcases List.mem_append.1 h' with h' | h'
  · exact runToggleLoop_getVcp_head c1 c2 ds 0 none [] j c h'
  · obtain ⟨x, _, hx⟩ := List.mem_map.1 h'
    cases hx

theorem runToggle_applies_target (c1 c2 cur t : InputSource)
    (d0 : DisplayBehavior) (rest : List DisplayBehavior) (c0 v : Nat)
    (hcap0 : d0.updateCapsOk = true)
    (hfeat0 : d0.inputFeature = some c0)
    (hval0 : d0.getVcpValue = some v)
    (hcur : InputSource.fromCode v = some cur)
    (ht : (if cur = c1 then some c2 else if cur = c2 then some c1 else none) =
      some t)
    (hcaps : ∀ d ∈ d0 :: rest, d.updateCapsOk = true) :
    (runToggle c1 c2 (d0 :: rest)).2 = true ∧
    (∀ k d c, (d0 :: rest).get? k = some d → d.inputFeature = some c →
      Event.setVcp k c t.toCode ∈ (runToggle c1 c2 (d0 :: rest)).1) ∧
    (∀ j c w, Event.setVcp j c w ∈ (runToggle c1 c2 (d0 :: rest)).1 →
      w = t.toCode) := by
  have hrest : ∀ d ∈ rest, d.updateCapsOk = true :=
    fun d hd => hcaps d (by simp [hd])
  have hstep := runToggle_first_decides c1 c2 cur t d0 rest c0 v hcap0 hfeat0
    hval0 hcur ht
  refine ⟨?_, ?_, ?_⟩
  · show (runToggleLoop c1 c2 0 (d0 :: rest) none []).2.2 = true
    rw [hstep]
    exact runToggleLoop_decided_success c1 c2 t rest hrest 1 [0]
  · intro k d c hk hfeatk
    show Event.setVcp k c t.toCode ∈
      (runToggleLoop c1 c2 0 (d0 :: rest) none []).1 ++
        (runToggleLoop c1 c2 0 (d0 :: rest) none []).2.1.map Event.sleep
    refine List.mem_append.2 (Or.inl ?_)
    rw [hstep]
    cases k with
    | zero =>
      simp only [List.get?] at hk
      injection hk with hk
      subst hk
      rw [hfeat0] at hfeatk
      injection hfeatk with hfeatk
      subst hfeatk
      simp
    | succ k' =>
      simp only [List.get?] at hk
      have hmem := runToggleLoop_decided_writes c1 c2 t rest hrest 1 [0] k' d c
        hk hfeatk
      have harith : 1 + k' = k' + 1 := by omega
      rw [harith] at hmem
      simp [hmem]
  · intro j c w hmem
    have hmem' : Event.setVcp j c w ∈
        (runToggleLoop c1 c2 0 (d0 :: rest) none []).1 ++
          (runToggleLoop c1 c2 0 (d0 :: rest) none []).2.1.map Event.sleep :=
      hmem
    rcases List.mem_append.1 hmem' with h | h
    · rw [hstep] at h
      by_cases hs : d0.setVcpOk <;> simp [hs] at h <;>
        rcases h with ⟨hj, hc, hw⟩ | h <;>
        first
          | exact hw
          | exact runToggleLoop_setVcp_value c1 c2 t rest 1 [0] j c w h
    · obtain ⟨x, _, hx⟩ := List.mem_map.1 h
      cases hx

theorem runToggle_bail_no_writes (c1 c2 cur : InputSource)
    (d0 : DisplayBehavior) (rest : List DisplayBehavior) (c0 v : Nat)
    (hcap0 : d0.updateCapsOk = true)
    (hfeat0 : d0.inputFeature = some c0)
    (hval0 : d0.getVcpValue = some v)
    (hcur : InputSource.fromCode v = some cur)
    (h1 : cur ≠ c1) (h2 : cur ≠ c2) :
    (runToggle c1 c2 (d0 :: rest)).2 = false ∧
    ∀ j c w, Event.setVcp j c w ∉ (runToggle c1 c2 (d0 :: rest)).1 := by
  have hstep := runToggle_first_bails c1 c2 cur d0 rest c0 v hcap0 hfeat0
    hval0 hcur h1 h2
  constructor
  · show (runToggleLoop c1 c2 0 (d0 :: rest) none []).2.2 = false
    rw [hstep]
  · intro j c w hmem
    have hmem' : Event.setVcp j c w ∈
        (runToggleLoop c1 c2 0 (d0 :: rest) none []).1 ++
          (runToggleLoop c1 c2 0 (d0 :: rest) none []).2.1.map Event.sleep :=
      hmem
    rw [hstep] at hmem'
    simp at hmem'

/-- **C3**: for `toggle c1 c2`, when the first matched display's probe
succeeds and it supports the Input-Source feature, the target is decided
solely from that display's current value — `c1` yields target `c2`, `c2`
yields target `c1`, and any other value aborts the whole command; once
decided, that single target value is carried by every write and applied to
every matched display (given all probes succeed), and no later display's
current value is ever read: every VCP read in the trace is on display 0. -/
theorem toggle_decision_from_first (c1 c2 cur : InputSource)
    (d0 : DisplayBehavior) (rest : List DisplayBehavior) (c0 v : Nat)
    (hcap0 : d0.updateCapsOk = true)
    (hfeat0 : d0.inputFeature = some c0)
    (hval0 : d0.getVcpValue = some v)
    (hcur : InputSource.fromCode v = some cur)
    (hcaps : ∀ d ∈ d0 :: rest, d.updateCapsOk = true) :
    (cur = c1 →
      (runToggle c1 c2 (d0 :: rest)).2 = true ∧
      (∀ k d c, (d0 :: rest).get? k = some d → d.inputFeature = some c →
        Event.setVcp k c c2.toCode ∈ (runToggle c1 c2 (d0 :: rest)).1) ∧
      (∀ j c w, Event.setVcp j c w ∈ (runToggle c1 c2 (d0 :: rest)).1 →
        w = c2.toCode)) ∧
    (cur ≠ c1 → cur = c2 →
      (runToggle c1 c2 (d0 :: rest)).2 = true ∧
      (∀ k d c, (d0 :: rest).get? k = some d → d.inputFeature = some c →
        Event.setVcp k c c1.toCode ∈ (runToggle c1 c2 (d0 :: rest)).1) ∧
      (∀ j c w, Event.setVcp j c w ∈ (runToggle c1 c2 (d0 :: rest)).1 →
        w = c1.toCode)) ∧
    (cur ≠ c1 → cur ≠ c2 → (runToggle c1 c2 (d0 :: rest)).2 = false) ∧
    (∀ j c, Event.getVcp j c ∈ (runToggle c1 c2 (d0 :: rest)).1 → j = 0) := by
  refine ⟨?_, ?_, ?_, ?_⟩
  · intro h1
    exact runToggle_applies_target c1 c2 cur c2 d0 rest c0 v hcap0 hfeat0
      hval0 hcur (by rw [if_pos h1]) hcaps
  · intro h1 h2
    exact runToggle_applies_target c1 c2 cur c1 d0 rest c0 v hcap0 hfeat0
      hval0 hcur (by rw [if_neg h1, if_pos h2]) hcaps
  · intro h1 h2
    show (runToggleLoop c1 c2 0 (d0 :: rest) none []).2.2 = false
    rw [runToggle_first_bails c1 c2 cur d0 rest c0 v hcap0 hfeat0 hval0
      hcur h1 h2]
  · exact fun j c h => runToggle_getVcp_zero c1 c2 (d0 :: rest) j c h

/-- A display currently on Hdmi1 (VCP value 0x11) with a healthy probe. -/
def onHdmi1 : DisplayBehavior := ⟨true, some 0x60, some 0x11, true⟩

/-- Witness for the C3 theorem: two displays, the first currently on Hdmi1;
`toggle Hdmi1 DisplayPort1` succeeds and writes DisplayPort1's code to the
second display. -/
theorem toggle_decision_from_first_witness :
    (runToggle InputSource.Hdmi1 InputSource.DisplayPort1 [onHdmi1, onHdmi1]).2
        = true ∧
    Event.setVcp 1 0x60 InputSource.DisplayPort1.toCode ∈
      (runToggle InputSource.Hdmi1 InputSource.DisplayPort1
        [onHdmi1, onHdmi1]).1 :=
  have h := toggle_decision_from_first InputSource.Hdmi1
    InputSource.DisplayPort1 InputSource.Hdmi1 onHdmi1 [onHdmi1] 0x60 0x11
    rfl rfl rfl (by decide) (by decide)
  ⟨(h.1 rfl).1, (h.1 rfl).2.1 1 onHdmi1 0x60 (by decide) rfl⟩

/-- **C4**: for `toggle c1 c2`, when the current value read from the first
matched display parses to a source equal to neither candidate, the command
aborts as a fatal error before any `set_vcp_feature` call is issued: the
result is a failure and the trace contains no write to any display. -/
theorem toggle_neither_candidate_unmutated (c1 c2 cur : InputSource)
    (d0 : DisplayBehavior) (rest : List DisplayBehavior) (c0 v : Nat)
    (hcap0 : d0.updateCapsOk = true)
    (hfeat0 : d0.inputFeature = some c0)
    (hval0 : d0.getVcpValue = some v)
    (hcur : InputSource.fromCode v = some cur)
    (h1 : cur ≠ c1) (h2 : cur ≠ c2) :
    (runToggle c1 c2 (d0 :: rest)).2 = false ∧
    ∀ j c w, Event.setVcp j c w ∉ (runToggle c1 c2 (d0 :: rest)).1 :=
  runToggle_bail_no_writes c1 c2 cur d0 rest c0 v hcap0 hfeat0 hval0 hcur h1 h2

/-- A display currently on Dvi1 (VCP value 0x03) with a healthy probe. -/
def onDvi1 : DisplayBehavior := ⟨true, some 0x60, some 0x03, true⟩

/-- Witness for the C4 theorem: the first display reads Dvi1, which is
neither toggle candidate, so `toggle Hdmi1 DisplayPort1` fails and no write
reaches the second display. -/
theorem toggle_neither_candidate_witness :
    (runToggle InputSource.Hdmi1 InputSource.DisplayPort1 [onDvi1, onHdmi1]).2
        = false ∧
    Event.setVcp 1 0x60 InputSource.DisplayPort1.toCode ∉
      (runToggle InputSource.Hdmi1 InputSource.DisplayPort1
        [onDvi1, onHdmi1]).1 :=
  have h := toggle_neither_candidate_unmutated InputSource.Hdmi1
    InputSource.DisplayPort1 InputSource.Dvi1 onDvi1 [onHdmi1] 0x60 0x03
    rfl rfl rfl (by decide) (by decide) (by decide)
  ⟨h.1, h.2 1 0x60 InputSource.DisplayPort1.toCode⟩

/-- **C10**: for `toggle X X` (both candidates the same source), a first
display currently on `X` resolves the target to `X` itself — the command
succeeds and writes `X` back to every matched display (a no-op switch) —
while a first display on any other source hits the ambiguous-toggle fatal
error with nothing written. -/
theorem toggle_same_candidates (X cur : InputSource)
    (d0 : DisplayBehavior) (rest : List DisplayBehavior) (c0 v : Nat)
    (hcap0 : d0.updateCapsOk = true)
    (hfeat0 : d0.inputFeature = some c0)
    (hval0 : d0.getVcpValue = some v)
    (hcur : InputSource.fromCode v = some cur)
    (hcaps : ∀ d ∈ d0 :: rest, d.updateCapsOk = true) :
    (cur = X →
      (runToggle X X (d0 :: rest)).2 = true ∧
      ∀ k d c, (d0 :: rest).get? k = some d → d.inputFeature = some c →
        Event.setVcp k c X.toCode ∈ (runToggle X X (d0 :: rest)).1) ∧
    (cur ≠ X →
      (runToggle X X (d0 :: rest)).2 = false ∧
      ∀ j c w, Event.setVcp j c w ∉ (runToggle X X (d0 :: rest)).1) := by
  constructor
  · intro h1
    have h := runToggle_applies_target X X cur X d0 rest c0 v hcap0 hfeat0
      hval0 hcur (by rw [if_pos h1]) hcaps
    exact ⟨h.1, h.2.1⟩
  · intro h1
    exact runToggle_bail_no_writes X X cur d0 rest c0 v hcap0 hfeat0 hval0
      hcur h1 h1

/-- Witness for the C10 theorem: `toggle Hdmi1 Hdmi1` with both displays on
Hdmi1 succeeds and rewrites Hdmi1 everywhere. -/
theorem toggle_same_candidates_witness :
    (runToggle InputSource.Hdmi1 InputSource.Hdmi1 [onHdmi1, onHdmi1]).2
        = true ∧
    Event.setVcp 1 0x60 InputSource.Hdmi1.toCode ∈
      (runToggle InputSource.Hdmi1 InputSource.Hdmi1 [onHdmi1, onHdmi1]).1 :=
  have h := toggle_same_candidates InputSource.Hdmi1 InputSource.Hdmi1
    onHdmi1 [onHdmi1] 0x60 0x11 rfl rfl rfl (by decide) (by decide)
  ⟨(h.1 rfl).1, (h.1 rfl).2 1 onHdmi1 0x60 (by decide) rfl⟩

theorem refreshStep_ok_of_healthy (needsCaps : Bool) (d : EnumDisplay)
    (h : needsCaps = true → d.info.backend = Backend.winApi →
      d.refreshOk = true) :
    refreshStep needsCaps d = Except.ok (applyRefresh needsCaps d) := by
  by_cases hcond : (needsCaps && (d.info.backend == Backend.winApi)) = true
  · have hparts := hcond
    rw [Bool.and_eq_true, beq_iff_eq] at hparts
    have hr := h hparts.1 hparts.2
    simp [refreshStep, applyRefresh, hcond, hr]
  · have hcond' : (needsCaps && (d.info.backend == Backend.winApi)) = false := by
      simpa using hcond
    simp [refreshStep, applyRefresh, hcond']

theorem displays_map_ok (query : Query) (needsCaps : Bool) :
    ∀ (enum : List EnumDisplay),
      (∀ d ∈ enum, needsCaps = true → d.info.backend = Backend.winApi →
        d.refreshOk = true) →
      ((enum.map (refreshStep needsCaps)).filter (fun r =>
        match r with
        | .ok d => query.matches d.info
        | .error _ => true)) =
      ((enum.map (applyRefresh needsCaps)).filter
        (fun d => query.matches d.info)).map Except.ok := by
  intro enum
  induction enum with
  | nil => intro _; rfl
  | cons d rest ih =>
    intro h
    have hd := refreshStep_ok_of_healthy needsCaps d (h d (by simp))
    have ih := ih (fun d' h' hq hb => h d' (by simp [h']) hq hb)
    by_cases hm : query.matches (applyRefresh needsCaps d).info = true <;>
      simp [hd, List.filter_cons, hm, ih]

/-- **C5**: the display locator maps the collaborator's enumeration through
the conditional capability refresh — applied exactly to `WinApi` displays
when the refresh flag is set — and a refresh failure aborts the whole
listing with an error; otherwise the result is the refreshed displays that
match the query, kept in enumeration order with no re-ordering or
de-duplication (a sublist of the refreshed enumeration). -/
theorem displays_refresh_and_order (query : Query) (needsCaps : Bool)
    (enum : List EnumDisplay) :
    (needsCaps = true → ∀ d ∈ enum, d.info.backend = Backend.winApi →
      d.refreshOk = false → displays query needsCaps enum = Except.error ()) ∧
    ((∀ d ∈ enum, needsCaps = true → d.info.backend = Backend.winApi →
        d.refreshOk = true) →
      displays query needsCaps enum =
        Except.ok ((enum.map (applyRefresh needsCaps)).filter
          (fun d => query.matches d.info)) ∧
      ((enum.map (applyRefresh needsCaps)).filter
          (fun d => query.matches d.info)).Sublist
        (enum.map (applyRefresh needsCaps))) := by
  constructor
  · intro hnc d hd hback hrf
    apply collectExcept_error_of_mem
    apply List.mem_filter.2
    refine ⟨List.mem_map.2 ⟨d, hd, ?_⟩, rfl⟩
    simp [refreshStep, hnc, hback, hrf]
  · intro hok
    have heq := displays_map_ok query needsCaps enum hok
    constructor
    · rw [displays, heq, collectExcept_ok]
    · exact List.filter_sublist _

/-- A WinApi-backed display whose capability refresh fails; its model name
would only be known after the refresh. -/
def winApiFailing : EnumDisplay :=
  ⟨⟨Backend.winApi, "a", none, none, none⟩, false,
   ⟨Backend.winApi, "a", none, some "M27", none⟩⟩

/-- A healthy I2C-backed display. -/
def i2cHealthy : EnumDisplay :=
  ⟨⟨Backend.i2cDevice, "b", some "ACM", some "M27", some "123"⟩, true,
   ⟨Backend.i2cDevice, "b", some "ACM", some "M27", some "123"⟩⟩

/-- Witness for the C5 theorem: the failing WinApi display aborts the
listing, and a healthy enumeration filters in order. -/
theorem displays_refresh_and_order_witness :
    displays Query.any true [winApiFailing, i2cHealthy] = Except.error () ∧
    displays Query.any false [i2cHealthy] = Except.ok [i2cHealthy] :=
  ⟨(displays_refresh_and_order Query.any true [winApiFailing, i2cHealthy]).1
      rfl winApiFailing (by simp) rfl rfl,
   by
    have h := (displays_refresh_and_order Query.any false [i2cHealthy]).2
      (by intro d _ hq; cases hq)
    rw [h.1]
    rfl⟩

/-- **C9**: a capability-refresh failure for a WinApi display aborts the
whole listing even when that display's info would not have matched the
filter predicate — the error result passes the filter stage unconditionally,
so the filter never masks a refresh failure. -/
theorem displays_error_passes_filter (query : Query)
    (enum : List EnumDisplay) (d : EnumDisplay) (hd : d ∈ enum)
    (hback : d.info.backend = Backend.winApi) (hrf : d.refreshOk = false)
    (_hnm : query.matches d.info = false) :
    displays query true enum = Except.error () := by
  apply collectExcept_error_of_mem
  apply List.mem_filter.2
  refine ⟨List.mem_map.2 ⟨d, hd, ?_⟩, rfl⟩
  simp [refreshStep, hback, hrf]

/-- Witness for the C9 theorem: the failing WinApi display does not match
the id filter, yet the whole listing still errors. -/
theorem displays_error_passes_filter_witness :
    displays (Query.id "zzz") true [winApiFailing, i2cHealthy] =
      Except.error () :=
  displays_error_passes_filter (Query.id "zzz") [winApiFailing, i2cHealthy]
    winApiFailing (by simp) rfl rfl (by decide)

/-- **C6**: the built filter predicate matches a display iff every present
filter individually matches that display's corresponding info field — the
backend whitelist matching when any of its values equals the display's
backend (logical OR), the other filters by equality on their field — and
with no filters present the predicate matches every display. -/
theorem buildQuery_matches_iff (backends : Option (List Backend))
    (id mfg model serial : Option String) (info : DisplayInfo) :
    ((buildQuery backends id mfg model serial).1.matches info = true ↔
      ((∀ bs, backends = some bs →
          bs.any (fun b => info.backend == b) = true) ∧
       (∀ s, id = some s → info.id = s) ∧
       (∀ s, mfg = some s → info.manufacturerId = some s) ∧
       (∀ s, model = some s → info.modelName = some s) ∧
       (∀ s, serial = some s → info.serialNumber = some s))) ∧
    (buildQuery none none none none none).1.matches info = true := by
  constructor
  · rcases backends with _ | bs <;> rcases id with _ | i <;>
      rcases mfg with _ | m <;> rcases model with _ | mo <;>
      rcases serial with _ | sn <;>
      simp [buildQuery, Query.matchesAll_eq_true, Query.matchesAny_eq_true,
        Query.matches, List.any_eq_true, and_assoc]
  · rfl

/-- A WinApi display info with manufacturer "ACM". -/
def demoInfo : DisplayInfo := ⟨Backend.winApi, "b", some "ACM", none, none⟩

/-- Witness for the C6 theorem at concrete filters and display info. -/
theorem buildQuery_matches_iff_witness :
    (buildQuery (some [Backend.i2cDevice, Backend.winApi]) none (some "ACM")
      none none).1.matches demoInfo = true := by
  apply (buildQuery_matches_iff (some [Backend.i2cDevice, Backend.winApi])
    none (some "ACM") none none demoInfo).1.mpr
  refine ⟨?_, ?_, ?_, ?_, ?_⟩
  · intro bs hbs
    injection hbs with hbs
    subst hbs
    decide
  · intro s hs
    cases hs
  · intro s hs
    injection hs with hs
    subst hs
    rfl
  · intro s hs
    cases hs
  · intro s hs
    cases hs

/-- **C8**: the capability-refresh-needed flag produced by the filter builder
is true exactly when a model-name filter is present; any combination of the
other filters without a model filter leaves it false. -/
theorem buildQuery_needsCaps (backends : Option (List Backend))
    (id mfg model serial : Option String) :
    (buildQuery backends id mfg model serial).2 = model.isSome := by
  rcases model with _ | s <;> rfl

/-- **C7**: the name↔code mapping of `InputSource` is a bijection over the
18-entry table with codes 0x01–0x12: name→code→name round-trips to the
identical name, every string outside the 18 names fails to parse, and every
device-returned numeric code outside the table is a conversion error. -/
theorem inputSource_bijection :
    (∀ s : InputSource, InputSource.fromName s.toName = some s) ∧
    (∀ n s, InputSource.fromName n = some s → s.toName = n) ∧
    (∀ s : InputSource, InputSource.fromCode s.toCode = some s) ∧
    (∀ c s, InputSource.fromCode c = some s → s.toCode = c) ∧
    (∀ s : InputSource, 0x01 ≤ s.toCode ∧ s.toCode ≤ 0x12) ∧
    (∀ n s, InputSource.fromName n = some s →
      InputSource.fromCode s.toCode = some s ∧
        InputSource.fromName s.toName = some s) ∧
    (∀ c, (∀ s : InputSource, s.toCode ≠ c) →
      InputSource.fromCode c = none) ∧
    (∀ n, (∀ s : InputSource, s.toName ≠ n) →
      InputSource.fromName n = none) := by
  refine ⟨InputSource.fromName_toName,
    fun n s h => InputSource.toName_of_fromName h,
    InputSource.fromCode_toCode,
    fun c s h => InputSource.toCode_of_fromCode h,
    ?_, ?_,
    fun c h => InputSource.fromCode_eq_none h,
    fun n h => InputSource.fromName_eq_none h⟩
  · intro s
    cases s <;> decide
  · intro n s h
    exact ⟨InputSource.fromCode_toCode s, InputSource.fromName_toName s⟩

/-- Witness for the C7 theorem: a round trip on "Hdmi1", a rejected numeric
code (0x60 is the feature code, not a source code) and a rejected name. -/
theorem inputSource_bijection_witness :
    InputSource.Hdmi1.toName = "Hdmi1" ∧
    InputSource.fromCode 0x60 = none ∧
    InputSource.fromName "Hdmi3" = none :=
  ⟨inputSource_bijection.2.1 "Hdmi1" InputSource.Hdmi1 rfl,
   inputSource_bijection.2.2.2.2.2.2.1 0x60 (by intro s; cases s <;> decide),
   inputSource_bijection.2.2.2.2.2.2.2 "Hdmi3"
     (by intro s; cases s <;> simp [InputSource.toName])⟩
